import Mathlib

/-!
Shallow embedding of `src/dummy_algorithm.py` (class `Agent`), the pricing
and scheduling engine of a battery energy-storage bidding agent.  Python
numbers are modelled as `ℚ` (the source only ever performs exact decimal
arithmetic on the paths verified here), fallible code returns
`Except PyErr`, and uncaught Python exceptions are modelled as `.error`
values.  Definitions keep the source's names (minus the `Agent._` prefix
where Lean naming allows).
-/

/-- Python exceptions that the source can raise on the modelled paths. -/
inductive PyErr where
  | typeErr (msg : String)
  | assertErr (msg : String)
  | importErr (msg : String)
  | valueErr (msg : String)
  | stopIteration
deriving Repr, DecidableEq

/-- Module constant `socmax = 608` (line 13). -/
def socmax : ℚ := 608

/-- Module constant `socmin = 128` (line 14). -/
def socmin : ℚ := 128

/-- Module constant `chmax = 125` (line 15). -/
def chmax : ℚ := 125

/-- Module constant `dcmax = 125` (line 16). -/
def dcmax : ℚ := 125

/-- Module constant `efficiency = 0.892` (line 17). -/
def efficiency : ℚ := 892 / 1000

/-- Module constant `duration_minutes = 5` (line 18). -/
def duration_minutes : ℚ := 5

/-- Configurable option `self.price_ceiling = 999` (line 57). -/
def price_ceiling : ℚ := 999

/-- Configurable option `self.price_floor = 0` (line 58). -/
def price_floor : ℚ := 0

/-- Python `min(l)`: ValueError on an empty list. -/
def pyMin (l : List ℚ) : Except PyErr ℚ :=
  match l.min? with
  | some m => .ok m
  | none => .error (.valueErr "min() arg is an empty sequence")

/-- Python `max(l)`: ValueError on an empty list. -/
def pyMax (l : List ℚ) : Except PyErr ℚ :=
  match l.max? with
  | some m => .ok m
  | none => .error (.valueErr "max() arg is an empty sequence")

/-- Python `l[i]` for a non-negative index: IndexError when out of range. -/
def pyGet (l : List ℚ) (i : ℕ) : Except PyErr ℚ :=
  match l.get? i with
  | some x => .ok x
  | none => .error (.valueErr "list index out of range")

/-- Python slice `l[a:b]` for non-negative bounds (clamping semantics). -/
def pySlice (l : List ℚ) (a b : ℕ) : List ℚ :=
  (l.drop a).take (b - a)

/-- Index of the last element satisfying `p`, mirroring Python
`max((index for index, value in enumerate(l) if p value), default=None)`. -/
def lastIdxSat (p : ℚ → Bool) (l : List ℚ) : Option ℕ :=
  ((l.enum.filter (fun q => p q.2)).map (fun q => q.1)).max?

/-- Agent._calc_oc_charge (lines 501-529): opportunity cost during a
scheduled charge.  The search for the next discharging period uses Python
`next` with no default, so an exhausted generator is a StopIteration
(modelled as `.error .stopIteration`); the `if not j` fallback
`j = min(idx + 1, len(prices) - 1)` is reached only when the search was
skipped (`idx = len - 1`) since a found `j` is at least `idx + 1 > 0`.
The test `idx < len(combined_list) - 1` is written `idx + 1 < length` to
match Python integer semantics at small lengths. -/
def calc_oc_charge (combined_list prices : List ℚ) (idx : ℕ) : Except PyErr (ℚ × ℚ) := do
  let j? : Option ℕ ←
    if idx + 1 < combined_list.length then
      match (combined_list.drop (idx + 1)).findIdx? (fun v => 0 < v) with
      | some off => pure (some (idx + 1 + off))
      | none => .error .stopIteration
    else
      pure none
  let j : ℕ :=
    match j? with
    | some jv => if jv = 0 then min (idx + 1) (prices.length - 1) else jv
    | none => min (idx + 1) (prices.length - 1)
  if idx = 0 then
    let m1 ← pyMin (pySlice prices 1 j)
    let pj ← pyGet prices j
    let oc_ch := min m1 (efficiency * pj)
    pure (oc_ch, oc_ch + 1 / 100)
  else do
    let arr1 ← pyMin (prices.take idx)
    let arr2 ←
      if j = idx + 1 then
        pure (0 : ℚ)
      else if j = idx + 2 then
        pyGet prices (j - 1)
      else
        pyMax (pySlice prices idx (j + 1))
    let m ← pyMin (prices.take idx ++ prices.drop (idx + 1))
    let pidx ← pyGet prices idx
    pure (m * efficiency, arr1 * efficiency + arr2 - pidx)

/-- Agent._calc_oc_discharge (lines 531-556): opportunity cost during a
scheduled discharge.  `combined_list[:idx-1]` keeps Python semantics at
`idx = 0` (a `-1` end slices off the last element); `j = max(..., default=None)`
followed by `if not j: j = 0` maps both `None` and `0` to `0`; the Python
comparisons `j == idx - 1`, `j == idx - 2` and `idx == len(prices) - 1` are
written additively to match their integer semantics at small `idx`. -/
def calc_oc_discharge (combined_list prices : List ℚ) (idx : ℕ) : Except PyErr (ℚ × ℚ) := do
  let sliced := if idx = 0 then combined_list.dropLast else combined_list.take (idx - 1)
  let j : ℕ := (lastIdxSat (fun v => v < 0) sliced).getD 0
  let arr1 ←
    if idx + 1 = prices.length then
      pure (0 : ℚ)
    else
      pyMax (prices.drop (idx + 1))
  let arr2 ←
    if j + 1 = idx then do
      let pj ← pyGet prices j
      pure (min pj 0)
    else if j + 2 = idx then
      pyGet prices (j + 1)
    else
      pyMin (pySlice prices (j + 1) idx)
  let pidx ← pyGet prices idx
  let m ← pyMin (pySlice prices j idx)
  pure ((pidx - arr2) * efficiency - arr1, m / efficiency)

/-- Agent._calc_oc_before_first_charge (lines 558-563). -/
def calc_oc_before_first_charge (prices : List ℚ) (t1_idx idx : ℕ) : Except PyErr (ℚ × ℚ) := do
  let m1 ← pyMin (pySlice prices idx (t1_idx + 1))
  let m2 ← pyMin (prices.take idx)
  pure (m1 * efficiency, m2 / efficiency)

/-- Agent._calc_oc_after_last_discharge (lines 565-574).  The Python test
`idx <= len(prices) - 2` is written `idx + 2 <= length`. -/
def calc_oc_after_last_discharge (prices : List ℚ) (t_last idx : ℕ) : Except PyErr (ℚ × ℚ) := do
  let oc_ch ←
    if idx + 2 ≤ prices.length then do
      let m ← pyMax (prices.drop (idx + 1))
      pure (m * efficiency)
    else
      pure price_floor
  let m ← pyMin (pySlice prices t_last (idx + 1))
  pure (oc_ch, m / efficiency)

/-- Agent._calc_oc_between_cycles (lines 576-593).  `next(..., None)`
followed by `idx + ...` is a TypeError when no later discharge exists, as is
`j_prev + 1` when no earlier charge exists; the Python test
`idx >= j_next - 1` is written `j_next <= idx + 1`. -/
def calc_oc_between_cycles (combined_list prices : List ℚ) (idx : ℕ) : Except PyErr (ℚ × ℚ) := do
  let j_next : ℕ ←
    match (combined_list.drop idx).findIdx? (fun v => 0 < v) with
    | some off => pure (idx + off)
    | none => .error (.typeErr "unsupported operand types for +: int and NoneType")
  let j_prev : ℕ ←
    match lastIdxSat (fun v => v < 0) (combined_list.take idx) with
    | some jp => pure jp
    | none => .error (.typeErr "unsupported operand types for +: NoneType and int")
  let oc_ch ←
    if idx ≤ j_prev + 1 then
      pyGet prices j_prev
    else do
      let m ← pyMax (pySlice prices (j_prev + 1) idx)
      let pjp ← pyGet prices j_prev
      pure (max (m * efficiency) pjp)
  let oc_dis ←
    if j_next ≤ idx + 1 then do
      let pn ← pyGet prices j_next
      let p1 ← pyGet prices (idx + 1)
      pure (min pn (p1 / efficiency))
    else do
      let pn ← pyGet prices j_next
      let m ← pyMin (pySlice prices (idx + 1) (j_next + 1))
      pure (min pn (m / efficiency))
  pure (oc_ch, oc_dis)

/-- Dispatch of one period of Agent._calculate_opportunity_costs'
per-period loop (lines 456-475): charge, discharge, idle before the first
charge, idle after the last discharge, idle between cycles. -/
def ocDispatch (combined_list prices : List ℚ) (t1_ch t_last_dis i : ℕ) (value : ℚ) :
    Except PyErr (ℚ × ℚ) :=
  if value < 0 then
    calc_oc_charge combined_list prices i
  else if 0 < value then
    calc_oc_discharge combined_list prices i
  else if i < t1_ch then
    calc_oc_before_first_charge prices t1_ch i
  else if t_last_dis < i then
    calc_oc_after_last_discharge prices t_last_dis i
  else
    calc_oc_between_cycles combined_list prices i

/-- Agent._calculate_opportunity_costs (lines 436-485).  `schedule` is
`dict(zip(time, combined_list))`; with distinct timestamps (the data-model
invariant) iterating the dict is iterating `times.zip combined_list` in
order, which is how the dict is embedded here.  `t1_ch` is searched over
the dict, `t_last_dis` over `combined_list` itself, as in the source.  The
two `assert isinstance(..., int)` checks fail exactly when the searches
found nothing (`None`), before any per-period cost is computed. -/
def calculate_opportunity_costs (times : List String) (prices charge_mq discharge_mq : List ℚ) :
    Except PyErr (List ℚ × List ℚ) := do
  let combined_list := List.zipWith (fun ch dis => dis - ch) charge_mq discharge_mq
  let sched := times.zip combined_list
  let t1_ch : ℕ ←
    match sched.findIdx? (fun p => p.2 < 0) with
    | some v => pure v
    | none => .error (.assertErr "t1_ch is not an int")
  let t_last_dis : ℕ ←
    match lastIdxSat (fun v => 0 < v) combined_list with
    | some v => pure v
    | none => .error (.assertErr "t_last_dis is not an int")
  let costs ← sched.enum.mapM (fun p => ocDispatch combined_list prices t1_ch t_last_dis p.1 p.2.2)
  let charge_list := costs.map (fun c => c.1)
  let discharge_list := costs.map (fun c => c.2)
  if (charge_list.map (fun c => |c|)).sum > 0 then
    if (discharge_list.map (fun d => |d|)).sum > 0 then
      pure (charge_list, discharge_list)
    else
      .error (.assertErr "calc_oc: discharge list has no values")
  else
    .error (.assertErr "calc_oc: charge list has no values")

/-- The linear program Agent._scheduler builds (lines 595-616), as the
predicate its constraints cut out.  Each `charge[i]` is a NumVar on
`[0, chmax]`, each `discharge[i]` on `[0, dcmax]`, each `dasoc[i]` on
`[0, socmax]`; `dasoc[0]` is then replaced by the literal `0`, and for each
`i` the solver gets `dasoc[i] + efficiency*charge[i] - discharge[i] ==
dasoc[i+1]`.  Only indices up to `len(prices)` exist in the program, so
only those are constrained. -/
def schedulerFeasible (prices : List ℚ) (charge discharge dasoc : ℕ → ℚ) : Prop :=
  (∀ i < prices.length, 0 ≤ charge i ∧ charge i ≤ chmax) ∧
  (∀ i < prices.length, 0 ≤ discharge i ∧ discharge i ≤ dcmax) ∧
  (∀ i ≤ prices.length, 0 ≤ dasoc i ∧ dasoc i ≤ socmax) ∧
  dasoc 0 = 0 ∧
  (∀ i < prices.length, dasoc i + efficiency * charge i - discharge i = dasoc (i + 1))

/-- The objective Agent._scheduler minimizes (lines 612-613):
`sum(prices[i]*(charge[i]-discharge[i]) for i in range(number_step))`. -/
def schedulerObjective (prices : List ℚ) (charge discharge : ℕ → ℚ) : ℚ :=
  (((List.range prices.length).map (fun i => prices.getD i 0 * (charge i - discharge i)))).sum

/-- Modelled from the spec: the state-of-charge trajectory implied by a
schedule, `soc[0] = 0`, `soc[t+1] = soc[t] + efficiency*charge[t] -
discharge[t]` (spec section 4.1). -/
def socTraj (charge discharge : ℕ → ℚ) : ℕ → ℚ
  | 0 => 0
  | t + 1 => socTraj charge discharge t + efficiency * charge t - discharge t

/-- Modelled from the spec: the feasible set of the claimed scheduler LP,
with the state-of-charge bound left as a parameter so the claimed bound
`socmax - socmin` and the bound the code actually imposes can both be
stated. -/
def specLPFeasible (prices : List ℚ) (charge discharge : ℕ → ℚ) (socBound : ℚ) : Prop :=
  (∀ t < prices.length, 0 ≤ charge t ∧ charge t ≤ chmax) ∧
  (∀ t < prices.length, 0 ≤ discharge t ∧ discharge t ≤ dcmax) ∧
  (∀ t ≤ prices.length, 0 ≤ socTraj charge discharge t ∧ socTraj charge discharge t ≤ socBound)

/-- Outcome of the external LP solve, the black box behind
`solver.Solve()`: a status report plus whatever the solver's variables
hold when `solution_value()` is read afterwards.  The source discards the
status (`solver.Solve()` on line 616 is a bare statement). -/
structure SolveOutcome where
  infeasible : Bool
  chargeVals : ℕ → ℚ
  dischargeVals : ℕ → ℚ

/-- Runtime behaviour of Agent._scheduler (lines 595-633) given the solver
availability and the solve outcome: an unavailable solver raises
ImportError, then the solution values are read without consulting the
solve status, and the two degenerate-schedule assertions run (charge
first). -/
def scheduler_run (solverLoaded : Bool) (outcome : SolveOutcome) (prices : List ℚ) :
    Except PyErr (List ℚ × List ℚ) :=
  if ¬ solverLoaded then
    .error (.importErr "Scheduler unable to load solver.")
  else
    let charge_list := (List.range prices.length).map outcome.chargeVals
    let discharge_list := (List.range prices.length).map outcome.dischargeVals
    if (charge_list.map (fun c => |c|)).sum > 0 then
      if (discharge_list.map (fun d => |d|)).sum > 0 then
        .ok (charge_list, discharge_list)
      else
        .error (.assertErr "scheduler: discharge list has no values")
    else
      .error (.assertErr "scheduler: charge list has no values")

/-- Mutable state of Agent._real_time_offer's ledger walk (lines 198-201):
`soc_available`, `soc_headroom`, `best_ch_price`, `best_dc_price`. -/
structure RTState where
  avail : ℚ
  headroom : ℚ
  bch : ℚ
  bdc : ℚ
deriving Repr, DecidableEq

/-- Initial walk state (lines 198-201): `soc_available = initial_soc -
socmin`, `soc_headroom = socmax - initial_soc`, best discharge price at the
floor, best charge price at the ceiling. -/
def rtInit (initial_soc : ℚ) : RTState :=
  ⟨initial_soc - socmin, socmax - initial_soc, price_ceiling, price_floor⟩

/-- Processing of one ledger order `(mq, mc)` (lines 235-263).  The four
branches in source order: in-bounds charge (`-soc_headroom <= mq*5/60 < 0`),
in-bounds discharge (`0 < mq*5/60 <= soc_available`), charge overflow
clamp, discharge overflow clamp; the final `else` leaves the state alone
(it only logs).  Note the in-bounds charge branch adds the *negative*
quantities: `soc_available += mq*efficiency*5/60` and `soc_headroom -=
mq*efficiency*5/60`, faithfully to the source. -/
def ledgerStep (st : RTState) (order : ℚ × ℚ) : RTState :=
  let mq := order.1
  let mc := order.2
  if -st.headroom ≤ mq * 5 / 60 ∧ mq * 5 / 60 < 0 then
    { st with avail := st.avail + mq * efficiency * 5 / 60,
              headroom := st.headroom - mq * efficiency * 5 / 60,
              bch := min st.bch mc }
  else if 0 < mq * 5 / 60 ∧ mq * 5 / 60 ≤ st.avail then
    { st with avail := st.avail - mq * 5 / 60,
              headroom := st.headroom + mq * 5 / 60,
              bdc := max st.bdc mc }
  else if mq * 5 / 60 < -st.headroom then
    { st with headroom := 0, avail := socmax - socmin, bch := min st.bch mc }
  else if st.avail < mq * 5 / 60 then
    { st with headroom := socmax - socmin, avail := 0, bdc := max st.bdc mc }
  else
    st

/-- Ledger of accepted energy orders, `resource[ledger][rid][EN]`:
an association of period to its list of `(mq, mc)` orders, with timestamps
modelled as naturals (the source's fixed-width timestamp strings are
ordered exactly as their numeric values). -/
def lookupLedger (ledger : List (ℕ × List (ℚ × ℚ))) (t : ℕ) : Option (List (ℚ × ℚ)) :=
  ledger.lookup t

/-- Per-period charge/discharge curves as seeded by the horizon loop of
Agent._real_time_offer (lines 212-232): whether or not the period has
ledger entries, the block holds exactly the zero-cost slack offer
`[chmax]@[0]` / `[dcmax]@[0]`, because the in-loop appends of ledger
quantities (lines 241-242, 248-249) are commented out in the source; the
entries only mutate the walk state. -/
def periodSeedBlocks (ledger : List (ℕ × List (ℚ × ℚ))) (t : ℕ) :
    (List ℚ × List ℚ) × (List ℚ × List ℚ) :=
  match lookupLedger ledger t with
  | none => (([chmax], [0]), ([dcmax], [0]))
  | some _ => (([chmax], [0]), ([dcmax], [0]))

/-- Walk state after the horizon loop (lines 212-268): every period's
ledger orders folded through `ledgerStep` in time order. -/
def rtStateAfterHorizon (timestamps : List ℕ) (ledger : List (ℕ × List (ℚ × ℚ)))
    (initial_soc : ℚ) : RTState :=
  timestamps.foldl
    (fun st t =>
      match lookupLedger ledger t with
      | none => st
      | some orders => orders.foldl ledgerStep st)
    (rtInit initial_soc)

/-- Post-market widening of the best prices (lines 271-276): every order
strictly beyond the last horizon timestamp updates `best_ch_price` down
and `best_dc_price` up. -/
def widenBestPrices (st : RTState) (postOrders : List (ℚ × ℚ)) : RTState :=
  postOrders.foldl
    (fun st o => { st with bch := min st.bch o.2, bdc := max st.bdc o.2 }) st

/-- Ledger entries strictly beyond the horizon, flattened in ledger order
(lines 271 and 296). -/
def postMarketList (ledger : List (ℕ × List (ℚ × ℚ))) (t_end : ℕ) : List (ℚ × ℚ) :=
  (ledger.filter (fun p => t_end < p.1)).flatMap (fun p => p.2)

/-- Final per-period charge/discharge curves of Agent._real_time_offer
(lines 212-292): the seeded blocks, then the remaining-capacity append
phase (lines 280-292) using the best prices after the post-market widening
(`dcmax - sum(block_dc_mq[t])` at `best_dc_price` when above `1e-2`, and
the charge side symmetrically). -/
def realTimeBlocks (timestamps : List ℕ) (ledger : List (ℕ × List (ℚ × ℚ)))
    (initial_soc : ℚ) (t : ℕ) : (List ℚ × List ℚ) × (List ℚ × List ℚ) :=
  let t_end := timestamps.foldl max 0
  let st := widenBestPrices (rtStateAfterHorizon timestamps ledger initial_soc)
    (postMarketList ledger t_end)
  let seed := periodSeedBlocks ledger t
  let dc_mq := seed.2.1
  let dc_mc := seed.2.2
  let dc_capacity := dcmax - dc_mq.sum
  let dcb := if 1 / 100 < dc_capacity then (dc_mq ++ [dc_capacity], dc_mc ++ [st.bdc])
    else (dc_mq, dc_mc)
  let ch_mq := seed.1.1
  let ch_mc := seed.1.2
  let ch_capacity := chmax - ch_mq.sum
  let chb := if 1 / 100 < ch_capacity then (ch_mq ++ [ch_capacity], ch_mc ++ [st.bch])
    else (ch_mq, ch_mc)
  (chb, dcb)

/-- Greedy walk of the post-horizon orders (lines 302-323), sorted by
price descending by the caller: an in-bounds future discharge consumes
capacity and is appended; a discharge exceeding the remaining capacity
zeroes it and appends the already-zeroed value (the source appends
`remaining_capacity` after setting it to 0); exhausted capacity breaks the
loop; anything else (a charge) is skipped.  Returns the accumulated
quantity and price lists and the remaining capacity. -/
def socLoop : List (ℚ × ℚ) → ℚ → List ℚ × List ℚ × ℚ
  | [], remaining => ([], [], remaining)
  | (mq, mc) :: rest, remaining =>
    if 0 < mq * 5 / 60 ∧ mq * 5 / 60 ≤ remaining then
      let r := socLoop rest (remaining - mq * 5 / 60)
      (mq :: r.1, mc :: r.2.1, r.2.2)
    else if 0 < remaining ∧ remaining < mq * 5 / 60 then
      let r := socLoop rest 0
      (0 :: r.1, mc :: r.2.1, r.2.2)
    else if remaining < 1 / 100 then
      ([], [], remaining)
    else
      socLoop rest remaining

/-- End-of-horizon SoC valuation lists of Agent._real_time_offer (lines
302-329): the greedy walk over the price-sorted post-horizon orders
starting from `soc_available`, then leftover capacity above `1e-2`
appended at the price ceiling (lines 325-327), then the unused
`soc_headroom` appended at price 0 (lines 328-329).  These are the raw
lists handed to `self.binner.collate`. -/
def socValuation (entries : List (ℚ × ℚ)) (soc_available soc_headroom : ℚ) :
    List ℚ × List ℚ :=
  let r := socLoop entries soc_available
  let soc_mq := r.1
  let soc_mc := r.2.1
  let remaining_capacity := r.2.2
  let soc_mq := if 1 / 100 < remaining_capacity then soc_mq ++ [remaining_capacity] else soc_mq
  let soc_mc := if 1 / 100 < remaining_capacity then soc_mc ++ [price_ceiling] else soc_mc
  (soc_mq ++ [soc_headroom], soc_mc ++ [0])

/-- Python values an offer block can hold per period: an int, a float, or
a list of numbers; the scalar/list duality of the curve representation. -/
inductive PyVal where
  | pint (n : ℤ)
  | pfloat (q : ℚ)
  | plist (l : List ℚ)
deriving Repr, DecidableEq

/-- Rendering of `type(v)` as the diagnostics print it, without Python's
quoting (the source interpolates `<class ...>`; the quote characters are
immaterial to the claims). -/
def typeName : PyVal → String
  | .pint _ => "<class int>"
  | .pfloat _ => "<class float>"
  | .plist _ => "<class list>"

/-- Whether a value is a Python scalar number, `isinstance(v, (int, float))`. -/
def isScalarNum : PyVal → Bool
  | .pint _ => true
  | .pfloat _ => true
  | .plist _ => false

/-- Whether a value is a Python list, `isinstance(v, list)`. -/
def isPyList : PyVal → Bool
  | .plist _ => true
  | _ => false

/-- Per-period body of Agent._offer_to_dicts (lines 127-142), with the
binner (`offer_utils.Binner.collate`, code outside this repository) passed
in as `collate`: a scalar/scalar pair passes through unchanged, a
list/list pair is length-checked then binned, anything else is the
TypeError of line 142 (whose message names the two types but not the
period). -/
def offer_to_dicts_period (collate : List ℚ → List ℚ → List ℚ × List ℚ)
    (time : String) (mc mq : PyVal) : Except PyErr (PyVal × PyVal) :=
  match mc, mq with
  | .pint nc, .pint nq => .ok (.pint nq, .pint nc)
  | .pint nc, .pfloat qq => .ok (.pfloat qq, .pint nc)
  | .pfloat qc, .pint nq => .ok (.pint nq, .pfloat qc)
  | .pfloat qc, .pfloat qq => .ok (.pfloat qq, .pfloat qc)
  | .plist lc, .plist lq =>
    if lc.length = lq.length then
      let offer := collate lq lc
      .ok (.plist offer.1, .plist offer.2)
    else
      .error (.assertErr ("charge mc and mq have different length, period " ++ time))
  | mc, mq =>
    .error (.typeErr ("unsupported charge offer types: mc is " ++ typeName mc ++
      ", mq is " ++ typeName mq))

/-- Per-period body of Agent._increase_discharging_offers (lines 371-377):
an int is adjusted and becomes a float, a list is adjusted elementwise,
anything else - including a float - is the TypeError of line 377 (whose
message interpolates the type of the whole block dict, a constant). -/
def increase_discharge_offer (adjustment : ℚ) : PyVal → Except PyErr PyVal
  | .pint n => .ok (.pfloat (n + adjustment))
  | .plist l => .ok (.plist (l.map (fun mc => mc + adjustment)))
  | _ => .error (.typeErr "discharge block type is unsupported. type=<class dict>")

/-- Whether a value is a Python int, `isinstance(v, int)` (the check
Agent._increase_discharging_offers uses, which a float fails). -/
def isPyInt : PyVal → Bool
  | .pint _ => true
  | _ => false

/-- Evaluation lemma: bind of a success. -/
theorem except_bind_ok {α β ε : Type} (a : α) (f : α → Except ε β) :
    (Except.ok a : Except ε α) >>= f = f a := rfl

/-- Evaluation lemma: bind of an error short-circuits. -/
theorem except_bind_error {α β ε : Type} (e : ε) (f : α → Except ε β) :
    (Except.error e : Except ε α) >>= f = Except.error e := rfl

/-- Evaluation lemma: map over a success. -/
theorem except_map_ok {α β ε : Type} (a : α) (f : α → β) :
    f <$> (Except.ok a : Except ε α) = Except.ok (f a) := rfl

/-- Evaluation lemma: map over an error. -/
theorem except_map_error {α β ε : Type} (e : ε) (f : α → β) :
    f <$> (Except.error e : Except ε α) = Except.error e := rfl

/-- Evaluation lemma: pure is ok. -/
theorem except_pure_eq {α ε : Type} (a : α) : (pure a : Except ε α) = Except.ok a := rfl

/-- C1: an in-bounds charge ledger entry (mq negative, energy within
soc_headroom) updates `best_charge_price` to `min(best_charge_price, mc)`,
but - contrary to the claim - it *decreases* soc_available and *increases*
soc_headroom by the efficiency-scaled energy, because the source adds the
negative quantity (`soc_available += mq*efficiency*5/60`,
`soc_headroom -= mq*efficiency*5/60` with `mq < 0`).  Evaluated at
soc_available = 100, soc_headroom = 50, entry (mq, mc) = (-12, 20), whose
energy magnitude 12*5/60 = 1 is within headroom. -/
theorem c1_in_bounds_charge_moves_soc_the_wrong_way :
    ledgerStep ⟨100, 50, 999, 0⟩ (-12, 20) =
      ⟨100 - 12 * efficiency * 5 / 60, 50 + 12 * efficiency * 5 / 60, 20, 0⟩ ∧
    (ledgerStep ⟨100, 50, 999, 0⟩ (-12, 20)).avail < 100 ∧
    50 < (ledgerStep ⟨100, 50, 999, 0⟩ (-12, 20)).headroom ∧
    (ledgerStep ⟨100, 50, 999, 0⟩ (-12, 20)).bch = min 999 20 := by
  refine ⟨?_, ?_, ?_, ?_⟩ <;>
    norm_num [ledgerStep, efficiency, RTState.mk.injEq, min_def]

/-- C3: for prices `[10, 10, 50, 50]` and a schedule charging fully in
period 0 and discharging fully in period 2, the opportunity-cost engine
returns discharge_cost[2] = 10 / efficiency (the charge price scaled by
the reciprocal efficiency) and charge_cost[0] = 10, which is bounded above
by the realized discharge price 50. -/
theorem c3_single_cycle_costs :
    ∃ charge_list discharge_list,
      calculate_opportunity_costs ["t0", "t1", "t2", "t3"] [10, 10, 50, 50]
        [125, 0, 0, 0] [0, 0, 125, 0] = .ok (charge_list, discharge_list) ∧
      discharge_list.get? 2 = some (10 / efficiency) ∧
      ∃ c0, charge_list.get? 0 = some c0 ∧ c0 ≤ 50 := by
  refine ⟨[10, 10, -358 / 25, 0], [1001 / 100, 50, 2500 / 223, 12500 / 223],
    ?_, ?_, 10, ?_, by norm_num⟩
  · norm_num [calculate_opportunity_costs, ocDispatch, calc_oc_charge, calc_oc_discharge,
      calc_oc_before_first_charge, calc_oc_after_last_discharge, calc_oc_between_cycles,
      lastIdxSat, pyMin, pyMax, pyGet, pySlice, efficiency, price_floor, price_ceiling,
      List.findIdx?_cons, List.findIdx?_nil, List.min?_cons, List.max?_cons,
      List.enum_cons, List.enumFrom_cons, List.filter_cons, List.mapM.loop,
      except_bind_ok, except_bind_error, except_map_ok, except_map_error, except_pure_eq,
      min_def, max_def, abs_of_nonneg, abs_of_nonpos]
  · norm_num [efficiency]
  · norm_num

/-- C5: a charging period with no later discharging period does not reach
the fallback `j = min(idx + 1, len(prices) - 1)` when it is not the last
period: the `next(...)` search on line 506 has no default and raises
StopIteration first.  Evaluated at combined_list = [-125, 0, 0] (a charge
in period 0 and no positive net flow afterwards), prices = [10, 20, 30],
idx = 0. -/
theorem c5_charge_without_later_discharge_raises :
    calc_oc_charge [-125, 0, 0] [10, 20, 30] 0 = .error .stopIteration := by
  norm_num [calc_oc_charge, List.findIdx?_cons, List.findIdx?_nil,
    except_bind_ok, except_bind_error, except_map_ok, except_map_error, except_pure_eq]

/-- C9: the sum soc_available + soc_headroom equals socmax - socmin at
initialization from any current SoC, and every branch of the ledger-entry
processing (in-bounds charge, in-bounds discharge, the two overflow
clamps, and the fall-through) preserves that sum exactly in exact
rational arithmetic. -/
theorem c9_capacity_sum_invariant :
    (∀ initial_soc : ℚ,
      (rtInit initial_soc).avail + (rtInit initial_soc).headroom = socmax - socmin) ∧
    (∀ (st : RTState) (order : ℚ × ℚ),
      st.avail + st.headroom = socmax - socmin →
      (ledgerStep st order).avail + (ledgerStep st order).headroom = socmax - socmin) := by
  constructor
  · intro s
    simp only [rtInit]
    ring
  · intro st order h
    obtain ⟨mq, mc⟩ := order
    simp only [ledgerStep]
    split_ifs <;> (try simp) <;> linarith

/-- C10: Agent._calculate_opportunity_costs asserts that the schedule has
a charging period and a discharging period before computing any
per-period cost: a schedule whose net flow is nowhere negative fails the
`t1_ch` assertion, and one whose net flow is nowhere positive fails one
of the two assertions (the `t1_ch` one when the horizon is empty, the
`t_last_dis` one otherwise). -/
theorem c10_requires_charge_and_discharge (times : List String)
    (prices charge_mq discharge_mq : List ℚ)
    (h : (∀ v ∈ List.zipWith (fun ch dis => dis - ch) charge_mq discharge_mq, 0 ≤ v) ∨
         (∀ v ∈ List.zipWith (fun ch dis => dis - ch) charge_mq discharge_mq, v ≤ 0)) :
    calculate_opportunity_costs times prices charge_mq discharge_mq =
      .error (.assertErr "t1_ch is not an int") ∨
    calculate_opportunity_costs times prices charge_mq discharge_mq =
      .error (.assertErr "t_last_dis is not an int") := by
  unfold calculate_opportunity_costs
  set combined := List.zipWith (fun ch dis => dis - ch) charge_mq discharge_mq with hc
  rcases h with h | h
  · left
    have hnone : (times.zip combined).findIdx? (fun p => decide (p.2 < 0)) = none := by
      rw [List.findIdx?_eq_none_iff]
      intro p hp
      simp only [decide_eq_false_iff_not, not_lt]
      exact h p.2 (List.of_mem_zip hp).2
    simp [hnone, except_bind_error]
  · rcases hfi : (times.zip combined).findIdx? (fun p => decide (p.2 < 0)) with _ | i
    · left
      simp [hfi, except_bind_error]
    · right
      have hnone : lastIdxSat (fun v => decide (0 < v)) combined = none := by
        unfold lastIdxSat
        rw [List.max?_eq_none_iff, List.map_eq_nil_iff, List.filter_eq_nil_iff]
        intro a ha
        simp only [decide_eq_true_eq, not_lt]
        exact h a.2 (List.mem_iff_getElem?.mpr ⟨a.1, List.mem_enum_iff_getElem?.mp ha⟩)
      simp [hfi, hnone, except_bind_error]

/-- C10 witness: a schedule that only discharges (net flow [1, 2]) fails
the first assertion. -/
theorem c10_requires_charge_and_discharge_instance :
    calculate_opportunity_costs ["a", "b"] [1, 2] [0, 0] [1, 2] =
      .error (.assertErr "t1_ch is not an int") ∨
    calculate_opportunity_costs ["a", "b"] [1, 2] [0, 0] [1, 2] =
      .error (.assertErr "t_last_dis is not an int") :=
  c10_requires_charge_and_discharge ["a", "b"] [1, 2] [0, 0] [1, 2]
    (Or.inl (by norm_num [List.zipWith_cons_cons]))

/-- C6: the end-of-horizon SoC valuation equals the greedy walk's lists
followed by, when more than 1e-2 of availability is left unallocated, one
entry of that leftover priced at the price ceiling, and in every case a
final entry of the unused soc_headroom priced at 0 - the lists then handed
to the binner. -/
theorem c6_soc_valuation_tail (entries : List (ℚ × ℚ)) (soc_available soc_headroom : ℚ) :
    ∃ qs cs remaining,
      socLoop entries soc_available = (qs, cs, remaining) ∧
      ((1 / 100 < remaining ∧
        socValuation entries soc_available soc_headroom =
          (qs ++ [remaining, soc_headroom], cs ++ [price_ceiling, 0])) ∨
       (remaining ≤ 1 / 100 ∧
        socValuation entries soc_available soc_headroom =
          (qs ++ [soc_headroom], cs ++ [0]))) := by
  refine ⟨(socLoop entries soc_available).1, (socLoop entries soc_available).2.1,
    (socLoop entries soc_available).2.2, rfl, ?_⟩
  by_cases hrem : 1 / 100 < (socLoop entries soc_available).2.2
  · left
    refine ⟨hrem, ?_⟩
    dsimp only [socValuation]
    rw [if_pos hrem, if_pos hrem]
    simp [List.append_assoc]
  · right
    refine ⟨le_of_not_lt hrem, ?_⟩
    dsimp only [socValuation]
    rw [if_neg hrem, if_neg hrem]


/-- Helper: a sum over `List.range` is the corresponding `Finset.range` sum. -/
theorem range_map_sum_eq (n : ℕ) (f : ℕ → ℚ) :
    ((List.range n).map f).sum = ∑ i in Finset.range n, f i := by
  induction n with
  | zero => simp
  | succ m ih => simp [List.range_succ, Finset.sum_range_succ, ih]

/-- C2 counterexample: the LP the code builds does not constrain the
state of charge by the capacity socmax - socmin = 480.  The schedule that
charges at full power for all 5 periods of a constant price forecast is
feasible for the code's constraints, yet its state of charge reaches
5 * efficiency * chmax = 557.5 > 480 (it only respects the code's actual
variable bound socmax = 608). -/
theorem c2_soc_capacity_not_enforced :
    schedulerFeasible [1, 1, 1, 1, 1] (fun _ => 125) (fun _ => 0)
      (fun i => 223 / 2 * i) ∧
    ¬ ((fun i : ℕ => (223 : ℚ) / 2 * i) 5 ≤ socmax - socmin) := by
  constructor
  · refine ⟨?_, ?_, ?_, ?_, ?_⟩
    · intro i _
      norm_num [chmax]
    · intro i _
      norm_num [dcmax]
    · intro i hi
      have hi5 : (i : ℚ) ≤ 5 := by exact_mod_cast hi
      have hi0 : (0 : ℚ) ≤ (i : ℚ) := by positivity
      constructor
      · positivity
      · rw [socmax]
        linarith
    · norm_num
    · intro i _
      push_cast
      rw [efficiency]
      ring
  · norm_num [socmax, socmin]

/-- C2 amended: the scheduler's LP has exactly the claimed feasible set
and objective except that the state-of-charge bound is `0 ≤ soc[t] ≤
socmax` (608), not `socmax - socmin`: a dasoc assignment satisfying the
code's constraints exists if and only if the trajectory implied by the
schedule stays in `[0, socmax]`, and the objective is
`Σ price[t]*(charge[t] - discharge[t])`. -/
theorem c2_scheduler_lp_characterization (prices : List ℚ) (charge discharge : ℕ → ℚ) :
    ((∃ dasoc, schedulerFeasible prices charge discharge dasoc) ↔
      specLPFeasible prices charge discharge socmax) ∧
    schedulerObjective prices charge discharge =
      ∑ i in Finset.range prices.length, prices.getD i 0 * (charge i - discharge i) := by
  constructor
  · constructor
    · rintro ⟨s, hc, hd, hb, h0, htr⟩
      refine ⟨hc, hd, ?_⟩
      have key : ∀ t, t ≤ prices.length → socTraj charge discharge t = s t := by
        intro t
        induction t with
        | zero =>
          intro _
          simpa [socTraj] using h0.symm
        | succ n ih =>
          intro hn
          have hn' : n < prices.length := Nat.lt_of_succ_le hn
          have hstep : socTraj charge discharge (n + 1) =
              socTraj charge discharge n + efficiency * charge n - discharge n := rfl
          rw [hstep, ih (Nat.le_of_lt hn'), htr n hn']
      intro t ht
      rw [key t ht]
      exact hb t ht
    · rintro ⟨hc, hd, hs⟩
      exact ⟨socTraj charge discharge, hc, hd, hs, rfl, fun i _ => rfl⟩
  · exact range_map_sum_eq prices.length _

/-- C4 counterexample: end to end, the discharge curve of the empty-ledger
real-time offer is not priced at 0: make_me_an_offer applies
_increase_discharging_offers with adjustment 1 to the real-time blocks, so
the saved discharge price list is [1], not [0] as the claim states.
Evaluated at one horizon period, timestamp 0, initial SoC 300. -/
theorem c4_discharge_price_shifted :
    realTimeBlocks [0] [] 300 0 = (([chmax], [0]), ([dcmax], [0])) ∧
    increase_discharge_offer 1 (.plist ((realTimeBlocks [0] [] 300 0).2.2)) =
      .ok (.plist [1]) ∧
    PyVal.plist [1] ≠ PyVal.plist [0] := by
  have hblocks : realTimeBlocks [0] [] 300 0 = (([chmax], [0]), ([dcmax], [0])) := by
    norm_num [realTimeBlocks, rtStateAfterHorizon, rtInit, widenBestPrices, postMarketList,
      periodSeedBlocks, lookupLedger, List.lookup, chmax, dcmax]
  refine ⟨hblocks, ?_, by simp⟩
  rw [hblocks]
  norm_num [increase_discharge_offer]

/-- C4 amended: for every horizon period of a real-time invocation with an
entirely empty ledger, the charge curve is exactly one entry, the full
chmax at price 0, and the discharge curve is exactly one entry, the full
dcmax - priced 0 by _real_time_offer and then shifted to 1 by the
+1 discharging adjustment make_me_an_offer applies before saving. -/
theorem c4_empty_ledger_slack_only (timestamps : List ℕ) (t : ℕ) (initial_soc : ℚ)
    (ht : t ∈ timestamps) :
    realTimeBlocks timestamps [] initial_soc t = (([chmax], [0]), ([dcmax], [0])) ∧
    increase_discharge_offer 1 (.plist (realTimeBlocks timestamps [] initial_soc t).2.2) =
      .ok (.plist [1]) := by
  have hfold : ∀ (l : List ℕ) (st : RTState),
      List.foldl (fun st t =>
        match lookupLedger [] t with
        | none => st
        | some orders => orders.foldl ledgerStep st) st l = st := by
    intro l
    induction l with
    | nil => intro st; rfl
    | cons x xs ih =>
      intro st
      exact ih st
  have hblocks : realTimeBlocks timestamps [] initial_soc t = (([chmax], [0]), ([dcmax], [0])) := by
    norm_num [realTimeBlocks, rtStateAfterHorizon, hfold, widenBestPrices, postMarketList,
      periodSeedBlocks, lookupLedger, List.lookup, chmax, dcmax]
  refine ⟨hblocks, ?_⟩
  rw [hblocks]
  norm_num [increase_discharge_offer]

/-- C4 witness: the empty-ledger conclusion at timestamps [7], period 7,
initial SoC 300. -/
theorem c4_empty_ledger_slack_only_instance :
    realTimeBlocks [7] [] 300 7 = (([chmax], [0]), ([dcmax], [0])) ∧
    increase_discharge_offer 1 (.plist (realTimeBlocks [7] [] 300 7).2.2) =
      .ok (.plist [1]) :=
  c4_empty_ledger_slack_only [7] 7 300 (by simp)

/-- C7 counterexample: an infeasible solve status does not abort the
invocation: the status is never inspected, so with nonzero solution
values an infeasible-flagged outcome still returns a schedule (here
for the two-period forecast [1, 2] with all values 1). -/
theorem c7_infeasible_status_ignored :
    scheduler_run true ⟨true, fun _ => 1, fun _ => 1⟩ [1, 2] = .ok ([1, 1], [1, 1]) := by
  norm_num [scheduler_run, List.range_succ]

/-- C7 amended: an unavailable solver aborts with the ImportError naming
the solver; the solve status is ignored (the result is the same whatever
the status flag says); and the invocation fails to produce a schedule on
a degenerate outcome, via the assertion about the charge list, not via
any diagnostic of the solver. -/
theorem c7_scheduler_error_paths (outcome : SolveOutcome) (prices : List ℚ) :
    scheduler_run false outcome prices =
      .error (.importErr "Scheduler unable to load solver.") ∧
    (∀ status status2 : Bool,
      scheduler_run true ⟨status, outcome.chargeVals, outcome.dischargeVals⟩ prices =
        scheduler_run true ⟨status2, outcome.chargeVals, outcome.dischargeVals⟩ prices) ∧
    ((∀ i < prices.length, outcome.chargeVals i = 0) →
      scheduler_run true outcome prices =
        .error (.assertErr "scheduler: charge list has no values")) := by
  refine ⟨rfl, fun s s2 => rfl, ?_⟩
  intro hz
  have hsum : ((List.range prices.length).map ((fun c => |c|) ∘ outcome.chargeVals)).sum = 0 := by
    apply List.sum_eq_zero
    intro x hx
    simp only [List.mem_map, List.mem_range] at hx
    obtain ⟨i, hi, rfl⟩ := hx
    simp [hz i hi]
  simp [scheduler_run, hsum]

/-- C8 counterexample: the type-error contract does not hold as claimed.
A float is a scalar number, yet _increase_discharging_offers raises a
TypeError on it (its isinstance check only accepts int and list); and the
TypeError diagnostic of _offer_to_dicts names the two offending types but
not the offending period: two calls differing only in the period raise
the identical message. -/
theorem c8_float_scalar_rejected :
    increase_discharge_offer 1 (.pfloat (1 / 2)) =
      .error (.typeErr "discharge block type is unsupported. type=<class dict>") ∧
    isScalarNum (.pfloat (1 / 2)) = true ∧
    offer_to_dicts_period (fun mq mc => (mq, mc)) "202404150000" (.pint 5) (.plist []) =
      .error (.typeErr "unsupported charge offer types: mc is <class int>, mq is <class list>") ∧
    offer_to_dicts_period (fun mq mc => (mq, mc)) "202404150000" (.pint 5) (.plist []) =
      offer_to_dicts_period (fun mq mc => (mq, mc)) "999912312359" (.pint 5) (.plist []) := by
  refine ⟨rfl, rfl, rfl, rfl⟩

/-- C8 amended: _offer_to_dicts raises a type error if and only if the
period's (mc, mq) pair is neither scalar/scalar nor list/list (a mixed
pair raises although each value alone is a scalar or a list), a
scalar/scalar pair passes through unchanged without invoking the binner,
and _increase_discharging_offers raises a type error if and only if the
value is neither an int nor a list - so a float scalar raises.  The
diagnostics name types, not the offending period. -/
theorem c8_offer_type_contract (collate : List ℚ → List ℚ → List ℚ × List ℚ)
    (time : String) (mc mq v : PyVal) (adjustment : ℚ) :
    ((∃ msg, offer_to_dicts_period collate time mc mq = .error (.typeErr msg)) ↔
      ¬ ((isScalarNum mc ∧ isScalarNum mq) ∨ (isPyList mc ∧ isPyList mq))) ∧
    (isScalarNum mc → isScalarNum mq →
      offer_to_dicts_period collate time mc mq = .ok (mq, mc)) ∧
    ((∃ msg, increase_discharge_offer adjustment v = .error (.typeErr msg)) ↔
      ¬ (isPyInt v ∨ isPyList v)) := by
  refine ⟨?_, ?_, ?_⟩
  · cases mc <;> cases mq <;>
      simp [offer_to_dicts_period, isScalarNum, isPyList] <;>
      split_ifs <;> simp
  · cases mc <;> cases mq <;> simp [offer_to_dicts_period, isScalarNum]
  · cases v <;> simp [increase_discharge_offer, isPyInt, isPyList]
